import Mathlib

/-!
Verification development for the UC-Control companion module
(`src/index.js`).  Byte buffers are modelled as `List Nat` (each entry one
byte, values below 256 at every point where the code produces them);
16-bit and 32-bit little-endian reads/writes are modelled with explicit
arithmetic.  Node `Buffer` operations are embedded as follows:
`readUInt16LE i` becomes `readU16 B i` (call sites establish the bounds the
Node call would otherwise enforce by throwing), `writeUInt16LE` becomes
`le16`, `toString('ascii')` masks each byte to 7 bits (`b % 128`), and
`indexOf('UC', 0, 'ascii')` is an exact two-byte search.  The IEEE-754
`writeFloatLE`/`readFloatLE` pair is modelled at the byte level: a value is
carried as its 4 little-endian bytes, `float32OfBool` gives the encodings of
1.0 and 0.0 used by the command path, and `float32PosLE` decides the
`val > 0` test on the bit pattern (sign bit clear, bits nonzero, not NaN).
-/

namespace UCControl

/-- Little-endian 16-bit read at byte offset `i` (Node `readUInt16LE`). -/
def readU16 (B : List Nat) (i : Nat) : Nat :=
  B.getD i 0 + 256 * B.getD (i + 1) 0

/-- Little-endian 16-bit write (Node `writeUInt16LE` into a 2-byte buffer). -/
def le16 (n : Nat) : List Nat :=
  [n % 256, n / 256 % 256]

/-- Little-endian 32-bit write (Node `writeUInt32LE` into a 4-byte buffer). -/
def le32 (n : Nat) : List Nat :=
  [n % 256, n / 256 % 256, n / 65536 % 256, n / 16777216 % 256]

/-- UTF-8 encoding of one character, as byte values. -/
def charUtf8 (c : Char) : List Nat :=
  let n := c.toNat
  if n < 128 then [n]
  else if n < 2048 then [192 + n / 64, 128 + n % 64]
  else if n < 65536 then [224 + n / 4096, 128 + n / 64 % 64, 128 + n % 64]
  else [240 + n / 262144, 128 + n / 4096 % 64, 128 + n / 64 % 64, 128 + n % 64]

/-- UTF-8 bytes of a string (Node `Buffer.from(s, 'utf8')`). -/
def strBytes (s : String) : List Nat :=
  s.data.flatMap charUtf8

/-- The 4 little-endian IEEE-754 binary32 bytes of 1.0 and 0.0, the two
values `buildPVPacket` is given by the command path
(`writeFloatLE(1.0)` and `writeFloatLE(0.0)`). -/
def float32OfBool (b : Bool) : List Nat :=
  if b then [0, 0, 128, 63] else [0, 0, 0, 0]

/-- The `val > 0` test of the JS code, decided on the 4 little-endian bytes
of an IEEE-754 binary32 value: positive iff the sign bit is clear, the bit
pattern is nonzero (rules out +0), and the value is not a NaN
(exponent 255 with nonzero mantissa). -/
def float32PosLE (v : List Nat) : Bool :=
  let w := v.getD 0 0 + 256 * v.getD 1 0 + 65536 * v.getD 2 0 +
    16777216 * v.getD 3 0
  let expo := w / 8388608 % 256
  let mant := w % 8388608
  w ≠ 0 && w < 2147483648 && !(expo == 255 && mant != 0)

/-- A decoded packet, as returned by `parsePacket`: `type` is the 2-byte
type tag after Node's 7-bit ascii masking, `a`/`b` the addressPair, `data`
the remaining payload bytes. -/
structure Packet where
  type : List Nat
  a : Nat
  b : Nat
  data : List Nat
deriving DecidableEq, Repr

/-- Embeds `parsePacket` (src/index.js:618-648).  The source throws
`Error` objects; this model returns `Except.error` with the thrown message.
The final branch models the `RangeError` Node throws from
`payload.readUInt16LE(2)` / `payload.readUInt16LE(4)` when the payload is
shorter than 6 bytes. -/
def parsePacket (data : List Nat) : Except String Packet :=
  if data.length < 6 then .error "Packet too small to be valid"
  else if ¬(data.getD 0 0 % 128 = 85 ∧ data.getD 1 0 % 128 = 67 ∧
      readU16 data 2 = 1) then .error "Invalid header"
  else
    let size := readU16 data 4
    if data.length < 6 + size then .error "Incomplete packet"
    else
      let payload := (data.drop 6).take size
      if payload.length < 6 then .error "outside buffer bounds"
      else .ok
        { type := [payload.getD 0 0 % 128, payload.getD 1 0 % 128]
          a := readU16 payload 2
          b := readU16 payload 4
          data := payload.drop 6 }

/-- The fixed header bytes `Buffer.from('UC\x00\x01', 'ascii')` emitted by
every build*Packet function (src/index.js:785, 805, 839, 856). -/
def headerBytes : List Nat := [85, 67, 0, 1]

/-- Embeds `buildUMPacket` (src/index.js:784-802): type 'UM', addressPair
a=0x00 b=0x66, body = 16-bit LE UDP port. -/
def buildUMPacket (udpPort : Nat) : List Nat :=
  let payload := [85, 77] ++ ([0, 0] ++ [102, 0]) ++ le16 udpPort
  headerBytes ++ le16 payload.length ++ payload

/-- The constant subscribe document of `buildJMPacket`
(src/index.js:811-822), exactly as `JSON.stringify` serializes it
(insertion order, no added whitespace). -/
def jmSubMsgStr : String :=
  "\x7b\"id\":\"Subscribe\",\"clientName\":\"Universal Control\"," ++
  "\"clientInternalName\":\"ucremoteapp\",\"clientType\":\"iPhone\"," ++
  "\"clientDescription\":\"iPhone\"," ++
  "\"clientIdentifier\":\"BE705B5B-ACEC-4941-9ABA-4FB5CA04AC6D\"," ++
  "\"clientOptions\":\"\",\"clientEncoding\":23117\x7d"

/-- Embeds `buildJMPacket` (src/index.js:804-836): type 'JM', addressPair
a=0x68 b=0x66, body = 32-bit LE document length followed by the document. -/
def buildJMPacket : List Nat :=
  let subMsgBuffer := strBytes jmSubMsgStr
  let payload := [74, 77] ++ ([104, 0] ++ [102, 0]) ++
    le32 subMsgBuffer.length ++ subMsgBuffer
  headerBytes ++ le16 payload.length ++ payload

/-- Embeds `buildKAPacket` (src/index.js:838-853): type 'KA', addressPair
a=0x68 b=0x66, empty body. -/
def buildKAPacket : List Nat :=
  let payload := [75, 65] ++ ([104, 0] ++ [102, 0])
  headerBytes ++ le16 payload.length ++ payload

/-- Embeds `buildPVPacket` (src/index.js:855-875): type 'PV', addressPair
a=0x68 b=0x66, body = UTF-8 name bytes, 3 zero padding bytes, 4 value
bytes.  The JS function takes a string and a float; the model takes their
byte encodings (`strBytes name` and the `writeFloatLE` output). -/
def buildPVPacket (nameBytes value4 : List Nat) : List Nat :=
  let payload := [80, 86] ++ ([104, 0] ++ [102, 0]) ++
    nameBytes ++ [0, 0, 0] ++ value4
  headerBytes ++ le16 payload.length ++ payload

/-! ### Frame Reassembler (`handleIncomingData`, src/index.js:522-591)

The `while` loop body becomes one step function; the loop itself becomes a
fuel-indexed recursion whose fuel `B.length` is shown adequate because every
continuing step shrinks the buffer by at least 2 bytes.  Besides the new
buffer, processing returns the list of packets parsed (in order), which is
what the loop hands to `handleZMPacket` / `handlePVPacket`. -/

/-- Result of one iteration of the `while` loop: `done` exits the loop with
the final buffer, `more` continues with the new buffer, carrying the packet
parsed in this iteration when there was one. -/
inductive Step where
  | done : List Nat → Step
  | more : List Nat → Option Packet → Step
deriving DecidableEq, Repr

/-- Index of the first occurrence of the bytes `'UC'` = `[85, 67]`, as
`Buffer.indexOf('UC', 0, 'ascii')` computes it (exact byte search). -/
def indexOfUC : List Nat → Option Nat
  | a :: b :: rest =>
    if a = 85 ∧ b = 67 then some 0 else (indexOfUC (b :: rest)).map (· + 1)
  | _ => none

/-- Whether dispatching a parsed packet throws out of the handler into the
catch block of `handleIncomingData`: `handleZMPacket` runs
`data.readUInt32LE(0)` outside its try (src/index.js:652) and
`handlePVPacket` runs `data.readFloatLE(data.length - 4)`
(src/index.js:673); both throw a `RangeError` when the body is shorter
than 4 bytes.  `[90, 77]` is 'ZM', `[80, 86]` is 'PV' (after the ascii
masking `parsePacket` applies to the type tag). -/
def dispatchThrows (p : Packet) : Bool :=
  (p.type = [90, 77] || p.type = [80, 86]) && p.data.length < 4

/-- The part of the loop body after the `'UC'` search has discarded the
`headerIndex` prefix (src/index.js:547-589): wait when under 6 bytes
remain; on a bad version discard exactly 2 bytes and continue; read the
declared size and wait when the frame is incomplete; otherwise extract the
frame, parse it, and on a parse or dispatch throw discard 2 further bytes
from the buffer that follows the extracted frame (the catch block at
src/index.js:585-589). -/
def stepAligned (B1 : List Nat) : Step :=
  if B1.length < 6 then .done B1
  else if readU16 B1 2 ≠ 1 then .more (B1.drop 2) none
  else if B1.length < 6 + readU16 B1 4 then .done B1
  else
    match parsePacket (B1.take (6 + readU16 B1 4)) with
    | .ok p =>
      if dispatchThrows p then .more ((B1.drop (6 + readU16 B1 4)).drop 2) (some p)
      else .more (B1.drop (6 + readU16 B1 4)) (some p)
    | .error _ => .more ((B1.drop (6 + readU16 B1 4)).drop 2) none

/-- One iteration of the `while (this.receiveBuffer.length >= 6)` loop
(src/index.js:530-590): search for `'UC'`, discard a whole buffer without
it, discard any bytes before it, then proceed as `stepAligned`. -/
def stepBuf (B : List Nat) : Step :=
  if B.length < 6 then .done B
  else
    match indexOfUC B with
    | none => .done []
    | some k => stepAligned (B.drop k)

/-- Fuel-indexed form of the reassembly loop; `processBuf` supplies
adequate fuel. -/
def processBufF : Nat → List Nat → List Nat × List Packet
  | 0, B => (B, [])
  | n + 1, B =>
    match stepBuf B with
    | .done Bf => (Bf, [])
    | .more B' op =>
      let r := processBufF n B'
      (r.1, op.toList ++ r.2)

/-- The reassembly loop of `handleIncomingData` run to completion on a
buffer: final buffer and parsed packets, in order. -/
def processBuf (B : List Nat) : List Nat × List Packet :=
  processBufF B.length B

/-- Embeds one call of `handleIncomingData` (src/index.js:522-591): append
the chunk to the carried receive buffer, run the loop, return the new
buffer and the packets parsed. -/
def handleIncomingData (buf data : List Nat) : List Nat × List Packet :=
  processBuf (buf ++ data)

/-- One delivery of a TCP chunk: run `handleIncomingData` on the carried
buffer and the chunk, accumulating the packets parsed so far. -/
def feedStep (st : List Nat × List Packet) (c : List Nat) :
    List Nat × List Packet :=
  let r := handleIncomingData st.1 c
  (r.1, st.2 ++ r.2)

/-- Feed a sequence of TCP chunks through `handleIncomingData`, starting
from the empty receive buffer of the constructor (src/index.js:14),
accumulating all parsed packets. -/
def feedChunks (cs : List (List Nat)) : List Nat × List Packet :=
  cs.foldl feedStep ([], [])

/-! ### Well-formed wire frames and chunk invariance -/

/-- A frame in the shape the reassembler and `parsePacket` accept: magic
`'UC'`, version field whose `readUInt16LE` value is 1 (bytes `[1, 0]`),
16-bit LE payload length, payload. -/
def mkFrame (pl : List Nat) : List Nat :=
  [85, 67, 1, 0] ++ le16 pl.length ++ pl

/-- The packet `parsePacket` returns for a frame with payload `pl`. -/
def framePacket (pl : List Nat) : Packet :=
  { type := [pl.getD 0 0 % 128, pl.getD 1 0 % 128]
    a := readU16 pl 2
    b := readU16 pl 4
    data := pl.drop 6 }

/-- The packet decoded from a complete frame. -/
def decodeFrame (F : List Nat) : Packet :=
  framePacket (F.drop 6)

/-- A frame the receive path processes without throwing anywhere: correct
magic and version, self-describing length, a payload long enough for
`parsePacket`'s fixed-offset reads (6 bytes), and — when the masked type
tag is 'ZM' or 'PV' — long enough for the handler's fixed-offset reads
(body of at least 4 bytes, so payload of at least 10). -/
def GoodFrame (F : List Nat) : Prop :=
  ∃ pl, F = mkFrame pl ∧ 6 ≤ pl.length ∧ pl.length < 65536 ∧
    (((pl.getD 0 0 % 128 = 90 ∧ pl.getD 1 0 % 128 = 77) ∨
      (pl.getD 0 0 % 128 = 80 ∧ pl.getD 1 0 % 128 = 86)) → 10 ≤ pl.length)

/-- The carried buffer is either empty or a proper prefix of the next
frame still to arrive. -/
def PartialFor (p : List Nat) (hs : List (List Nat)) : Prop :=
  p = [] ∨ ∃ F hs₂ s, hs = F :: hs₂ ∧ p ++ s = F ∧ s ≠ []

/-! ### State Store (`channelStates`, `mixerBypassState`) -/

/-- One channel's record of known boolean attributes
(`this.channelStates[n]`, a JS object whose fields are absent until first
observed).  The JS key `'48v'` is not a Lean identifier and is named
`v48`. -/
structure ChanRec where
  mute : Option Bool := none
  solo : Option Bool := none
  v48 : Option Bool := none
  hpf : Option Bool := none
  pad : Option Bool := none
deriving DecidableEq, Repr

/-- The five per-channel attributes. -/
inductive Attr where
  | mute
  | solo
  | v48
  | hpf
  | pad
deriving DecidableEq, Repr

/-- Field selector on a channel record. -/
def ChanRec.attr : ChanRec → Attr → Option Bool
  | r, .mute => r.mute
  | r, .solo => r.solo
  | r, .v48 => r.v48
  | r, .hpf => r.hpf
  | r, .pad => r.pad

/-- Field update on a channel record (JS `rec[param] = isActive`). -/
def ChanRec.setAttr (r : ChanRec) : Attr → Bool → ChanRec
  | .mute, x => { r with mute := some x }
  | .solo, x => { r with solo := some x }
  | .v48, x => { r with v48 := some x }
  | .hpf, x => { r with hpf := some x }
  | .pad, x => { r with pad := some x }

/-- The instance state the claims concern (constructor, src/index.js:8-15):
`channelStates` starts as the empty object (no channel records) and
`mixerBypassState` starts as the plain boolean `false` — the source
comment reads "assumes begins in not-bypassed state". -/
structure UCState where
  channelStates : Nat → Option ChanRec
  mixerBypassState : Bool

/-- The state built by the constructor. -/
def initState : UCState :=
  { channelStates := fun _ => none, mixerBypassState := false }

/-- JS `this.channelStates[n] = r`. -/
def setChan (n : Nat) (r : ChanRec) (s : UCState) : UCState :=
  { s with channelStates := fun k => if k = n then some r else s.channelStates k }

/-- The tri-state read the feedback callbacks and toggle commands perform:
`channelState && typeof channelState.<attr> === 'boolean'` — `none` when
the channel record or the attribute has never been observed. -/
def readChanAttr (s : UCState) (n : Nat) (a : Attr) : Option Bool :=
  (s.channelStates n).bind (fun r => r.attr a)

/-- Embeds the `channel_mute_state` feedback callback
(src/index.js:342-360): the colour for a known state, `null` when the
mute state is unknown. -/
def channelMuteFeedback (s : UCState) (n : Nat)
    (mutedColor unmutedColor : Nat) : Option Nat :=
  match s.channelStates n with
  | some r =>
    match r.mute with
    | some b => if b then some mutedColor else some unmutedColor
    | none => none
  | none => none

/-- Embeds the `channel_solo_state` feedback callback
(src/index.js:390-402). -/
def channelSoloFeedback (s : UCState) (n : Nat)
    (soloColor normalColor : Nat) : Option Nat :=
  match s.channelStates n with
  | some r =>
    match r.solo with
    | some b => if b then some soloColor else some normalColor
    | none => none
  | none => none

/-- Embeds the `channel_hpf_state` feedback callback
(src/index.js:432-444). -/
def channelHPFFeedback (s : UCState) (n : Nat)
    (hpfColor normalColor : Nat) : Option Nat :=
  match s.channelStates n with
  | some r =>
    match r.hpf with
    | some b => if b then some hpfColor else some normalColor
    | none => none
  | none => none

/-- Embeds the `channel_48v_state` feedback callback
(src/index.js:473-485). -/
def channel48VFeedback (s : UCState) (n : Nat)
    (onColor offColor : Nat) : Option Nat :=
  match s.channelStates n with
  | some r =>
    match r.v48 with
    | some b => if b then some onColor else some offColor
    | none => none
  | none => none

/-- Embeds the `mixer_bypass_state` feedback callback
(src/index.js:507-517).  The source guards with
`typeof this.mixerBypassState === 'boolean'`, but the field is initialized
to the boolean `false` and only ever assigned booleans, so the guard is
always satisfied and the `return null` branch is unreachable. -/
def mixerBypassFeedback (s : UCState) (bypassedColor activeColor : Nat) :
    Option Nat :=
  some (if s.mixerBypassState then bypassedColor else activeColor)

/-! ### Command API (`set*` / `toggle*`, src/index.js:877-997)

Each `set*` builds a PV packet and writes it to the transport; each
`toggle*` additionally reads and optimistically updates the State Store.
The model returns the new state together with the list of packets sent. -/

/-- Embeds `setChannelMute` (src/index.js:889-892): the PV packet sent. -/
def setChannelMutePacket (n : Nat) (mute : Bool) : List Nat :=
  buildPVPacket (strBytes ("line/ch" ++ toString n ++ "/mute"))
    (float32OfBool mute)

/-- Embeds `setChannelSolo` (src/index.js:929-932). -/
def setChannelSoloPacket (n : Nat) (solo : Bool) : List Nat :=
  buildPVPacket (strBytes ("line/ch" ++ toString n ++ "/solo"))
    (float32OfBool solo)

/-- Embeds `setChannel48V` (src/index.js:950-953). -/
def setChannel48VPacket (n : Nat) (state : Bool) : List Nat :=
  buildPVPacket (strBytes ("line/ch" ++ toString n ++ "/48v"))
    (float32OfBool state)

/-- Embeds `setChannelHPF` (src/index.js:972-975). -/
def setChannelHPFPacket (n : Nat) (state : Bool) : List Nat :=
  buildPVPacket (strBytes ("line/ch" ++ toString n ++ "/hpf"))
    (float32OfBool state)

/-- Embeds `setChannelPad` (src/index.js:994-997). -/
def setChannelPadPacket (n : Nat) (state : Bool) : List Nat :=
  buildPVPacket (strBytes ("line/ch" ++ toString n ++ "/pad"))
    (float32OfBool state)

/-- Embeds `setMixerBypass` (src/index.js:884-887). -/
def setMixerBypassPacket (bypass : Bool) : List Nat :=
  buildPVPacket (strBytes "global/mixerBypass") (float32OfBool bypass)

/-- Embeds `toggleChannelMute` (src/index.js:894-910).  Known state:
negate, send, and mutate the `mute` field of the existing record.  Unknown
state: send `true` and replace the whole record with `{ mute: true }`. -/
def toggleChannelMute (n : Nat) (s : UCState) : UCState × List (List Nat) :=
  match s.channelStates n with
  | some r =>
    match r.mute with
    | some m =>
      (setChan n { r with mute := some (!m) } s, [setChannelMutePacket n (!m)])
    | none => (setChan n { mute := some true } s, [setChannelMutePacket n true])
  | none => (setChan n { mute := some true } s, [setChannelMutePacket n true])

/-- Embeds `toggleChannelSolo` (src/index.js:912-927).  Unknown state:
send `true` and merge `{ ...currentState, solo: true }`. -/
def toggleChannelSolo (n : Nat) (s : UCState) : UCState × List (List Nat) :=
  match s.channelStates n with
  | some r =>
    match r.solo with
    | some m =>
      (setChan n { r with solo := some (!m) } s, [setChannelSoloPacket n (!m)])
    | none => (setChan n { r with solo := some true } s, [setChannelSoloPacket n true])
  | none => (setChan n { solo := some true } s, [setChannelSoloPacket n true])

/-- Embeds `toggleChannel48V` (src/index.js:934-948).  Unknown state:
send `false` and merge `{ ...currentState, '48v': false }`. -/
def toggleChannel48V (n : Nat) (s : UCState) : UCState × List (List Nat) :=
  match s.channelStates n with
  | some r =>
    match r.v48 with
    | some m =>
      (setChan n { r with v48 := some (!m) } s, [setChannel48VPacket n (!m)])
    | none => (setChan n { r with v48 := some false } s, [setChannel48VPacket n false])
  | none => (setChan n { v48 := some false } s, [setChannel48VPacket n false])

/-- Embeds `toggleChannelHPF` (src/index.js:955-970).  Unknown state:
send `false` and merge `{ ...currentState, hpf: false }`. -/
def toggleChannelHPF (n : Nat) (s : UCState) : UCState × List (List Nat) :=
  match s.channelStates n with
  | some r =>
    match r.hpf with
    | some m =>
      (setChan n { r with hpf := some (!m) } s, [setChannelHPFPacket n (!m)])
    | none => (setChan n { r with hpf := some false } s, [setChannelHPFPacket n false])
  | none => (setChan n { hpf := some false } s, [setChannelHPFPacket n false])

/-- Embeds `toggleChannelPad` (src/index.js:977-992).  Unknown state:
send `false` and merge `{ ...currentState, pad: false }`. -/
def toggleChannelPad (n : Nat) (s : UCState) : UCState × List (List Nat) :=
  match s.channelStates n with
  | some r =>
    match r.pad with
    | some m =>
      (setChan n { r with pad := some (!m) } s, [setChannelPadPacket n (!m)])
    | none => (setChan n { r with pad := some false } s, [setChannelPadPacket n false])
  | none => (setChan n { pad := some false } s, [setChannelPadPacket n false])

/-- Embeds `toggleMixerBypass` (src/index.js:877-882): negate the plain
boolean field, send, and record. -/
def toggleMixerBypass (s : UCState) : UCState × List (List Nat) :=
  let nb := !s.mixerBypassState
  ({ s with mixerBypassState := nb }, [setMixerBypassPacket nb])

/-! ### Inbound PV handling (`handlePVPacket`, src/index.js:669-726) -/

/-- The name/value split of `handlePVPacket` (src/index.js:671-673):
`nameLength = data.length - 4`; the name is the UTF-8 decode of the first
`nameLength` bytes with NUL characters removed (modelled as the
NUL-filtered bytes), the value is `readFloatLE(nameLength)` (modelled as
the 4 remaining bytes). -/
def pvSplit (data : List Nat) : List Nat × List Nat :=
  ((data.take (data.length - 4)).filter (fun b => b ≠ 0),
    data.drop (data.length - 4))

/-- Byte values of characters '0'-'9' (the regex `\d`). -/
def isDigitByte (b : Nat) : Bool := 48 ≤ b && b ≤ 57

/-- `parseInt(digits, 10)` on a string of decimal digit bytes. -/
def digitsVal (ds : List Nat) : Nat :=
  ds.foldl (fun acc b => acc * 10 + (b - 48)) 0

/-- Strip an expected byte sequence from the front, or fail. -/
def stripBytes : List Nat → List Nat → Option (List Nat)
  | [], l => some l
  | _ :: _, [] => none
  | a :: pre, b :: l => if b = a then stripBytes pre l else none

/-- The regex match `^line\/ch(\d+)\/(mute|solo|48v|hpf|pad)$` of
`handlePVPacket` (src/index.js:685), on the NUL-stripped name bytes:
the literal prefix `"line/ch"`, then a nonempty maximal run of digits,
then exactly one of the five attribute suffixes. -/
def parseLineCh (name : List Nat) : Option (Nat × Attr) :=
  match stripBytes [108, 105, 110, 101, 47, 99, 104] name with
  | some rest =>
    let ds := rest.takeWhile isDigitByte
    let tail := rest.dropWhile isDigitByte
    if ds.length = 0 then none
    else if tail = [47, 109, 117, 116, 101] then some (digitsVal ds, .mute)
    else if tail = [47, 115, 111, 108, 111] then some (digitsVal ds, .solo)
    else if tail = [47, 52, 56, 118] then some (digitsVal ds, .v48)
    else if tail = [47, 104, 112, 102] then some (digitsVal ds, .hpf)
    else if tail = [47, 112, 97, 100] then some (digitsVal ds, .pad)
    else none
  | none => none

/-- Embeds `handlePVPacket` (src/index.js:669-726): split the body into
name and value, then either update `mixerBypassState`, merge one channel
attribute (`{ ...this.channelStates[n], [param]: isActive }`), or ignore
the unrecognized path. -/
def handlePVPacket (data : List Nat) (s : UCState) : UCState :=
  let name := (pvSplit data).1
  let val4 := (pvSplit data).2
  if name = strBytes "global/mixerBypass" then
    { s with mixerBypassState := float32PosLE val4 }
  else
    match parseLineCh name with
    | some (n, a) =>
      setChan n (((s.channelStates n).getD {}).setAttr a (float32PosLE val4)) s
    | none => s

/-! ### Snapshot handling (`handleZMPacket` / `updateChannelStates` /
`updateGlobalStates`, src/index.js:650-782) -/

/-- The numeric attribute values present under
`children.line.children.ch<N>.values` for one channel; absent keys are
`none`.  JSON numbers are modelled as integers — the code only tests
`> 0`. -/
structure ChanValues where
  mute : Option Int := none
  solo : Option Int := none
  v48 : Option Int := none
  hpf : Option Int := none
  pad : Option Int := none
deriving DecidableEq, Repr

/-- Field selector on snapshot values. -/
def ChanValues.attr : ChanValues → Attr → Option Int
  | v, .mute => v.mute
  | v, .solo => v.solo
  | v, .v48 => v.v48
  | v, .hpf => v.hpf
  | v, .pad => v.pad

/-- The decompressed snapshot document, restricted to the paths the code
walks: the entries of `children.line.children` in iteration order (second
component `none` when the entry has no truthy `values`), and
`children.global.values.mixerBypass`.  An absent `children.line` subtree
behaves as an empty entry list, and an absent `children.global` or
`values.mixerBypass` as `none` — in both cases the code touches nothing. -/
structure ZMDoc where
  lineChildren : List (String × Option ChanValues)
  globalMixerBypass : Option Int
deriving DecidableEq, Repr

/-- The regex match `^ch(\d+)$` with `parseInt` on the captured digits
(src/index.js:747-749). -/
def matchChKey (k : String) : Option Nat :=
  match k.data with
  | 'c' :: 'h' :: rest =>
    if rest ≠ [] ∧ rest.all (fun c => 48 ≤ c.toNat && c.toNat ≤ 57) then
      some (digitsVal (rest.map Char.toNat))
    else none
  | _ => none

/-- Per-field merge of one channel's snapshot values into its record
(src/index.js:755-778): only keys present in the document are written. -/
def applyChanValues (v : ChanValues) (r : ChanRec) : ChanRec :=
  { mute := match v.mute with | some x => some (decide (0 < x)) | none => r.mute
    solo := match v.solo with | some x => some (decide (0 < x)) | none => r.solo
    v48 := match v.v48 with | some x => some (decide (0 < x)) | none => r.v48
    hpf := match v.hpf with | some x => some (decide (0 < x)) | none => r.hpf
    pad := match v.pad with | some x => some (decide (0 < x)) | none => r.pad }

/-- One iteration of the `for (const [key, channelData] of ...)` loop of
`updateChannelStates` (src/index.js:746-779): keys not matching
`^ch(\d+)$` or without truthy `values` are skipped; otherwise the channel
record is created if missing and merged. -/
def chanEntryStep (st : UCState) (kv : String × Option ChanValues) : UCState :=
  match matchChKey kv.1, kv.2 with
  | some n, some v =>
    setChan n (applyChanValues v ((st.channelStates n).getD {})) st
  | _, _ => st

/-- Embeds `updateChannelStates` (src/index.js:742-782). -/
def updateChannelStates (doc : ZMDoc) (s : UCState) : UCState :=
  doc.lineChildren.foldl chanEntryStep s

/-- Embeds `updateGlobalStates` (src/index.js:729-740): only an explicitly
present `mixerBypass` value is applied. -/
def updateGlobalStates (doc : ZMDoc) (s : UCState) : UCState :=
  match doc.globalMixerBypass with
  | some x => { s with mixerBypassState := decide (0 < x) }
  | none => s

/-- Embeds `handleZMPacket` (src/index.js:650-666): skip the 4-byte
prefix, skip 2 bytes of the compressed blob, then raw-inflate and
JSON-parse — modelled by the parameter `inflateParse`, `none` standing for
a throw of `zlib.inflateRawSync` or `JSON.parse` — and on success apply
`updateChannelStates` then `updateGlobalStates`; on failure only log. -/
def handleZMPacket (inflateParse : List Nat → Option ZMDoc) (body : List Nat)
    (s : UCState) : UCState :=
  let compressedData := (body.drop 4).drop 2
  match inflateParse compressedData with
  | some doc => updateGlobalStates doc (updateChannelStates doc s)
  | none => s

/-- The snapshot application on a successfully decompressed document, as
`handleZMPacket` performs it (src/index.js:661-662). -/
def applySnapshot (doc : ZMDoc) (s : UCState) : UCState :=
  updateGlobalStates doc (updateChannelStates doc s)

/-! ### Theorems -/

/-- Every built packet starts `[85, 67, 0, 1]`, so `readU16 · 2` sees
`0 + 256 * 1 = 256`, never 1, and `parsePacket` rejects it. -/
theorem parsePacket_headerBytes (n : Nat) (pl : List Nat) :
    parsePacket (headerBytes ++ le16 n ++ pl) = .error "Invalid header" := by
  have hform : headerBytes ++ le16 n ++ pl =
      85 :: 67 :: 0 :: 1 :: (n % 256) :: (n / 256 % 256) :: pl := by
    simp [headerBytes, le16]
  rw [hform]
  unfold parsePacket
  rw [if_neg (by intro hc; simp at hc; omega), if_pos]
  intro h
  have h22 := h.2.2
  have hv : readU16 (85 :: 67 :: 0 :: 1 :: (n % 256) :: (n / 256 % 256) :: pl)
      2 = 256 := rfl
  rw [hv] at h22
  exact absurd h22 (by omega)

/-- C1: the claimed encode/decode round trip fails for every message type.
Every builder emits the header bytes `'UC\x00\x01'` = `[85, 67, 0, 1]`, but
`parsePacket` requires `readUInt16LE(2) === 1`, i.e. version bytes
`[1, 0]`; it therefore throws `Invalid header` on every built frame, for
every input. -/
theorem builtPacket_parse_fails (port : Nat) (nameBytes value4 : List Nat) :
    parsePacket (buildUMPacket port) = .error "Invalid header" ∧
    parsePacket buildJMPacket = .error "Invalid header" ∧
    parsePacket buildKAPacket = .error "Invalid header" ∧
    parsePacket (buildPVPacket nameBytes value4) = .error "Invalid header" := by
  refine ⟨?_, ?_, ?_, ?_⟩ <;> apply parsePacket_headerBytes

theorem stepAligned_shrink (B1 B' : List Nat) (op : Option Packet)
    (h : stepAligned B1 = .more B' op) : B'.length + 2 ≤ B1.length := by
  unfold stepAligned at h
  split at h
  · exact absurd h (by simp)
  next h6 =>
    split at h
    · cases h
      simp only [List.length_drop]
      omega
    · split at h
      · exact absurd h (by simp)
      next htot =>
        split at h
        next p hp =>
          split at h <;> cases h <;> simp only [List.length_drop] <;> omega
        · cases h
          simp only [List.length_drop]
          omega

theorem stepBuf_shrink (B B' : List Nat) (op : Option Packet)
    (h : stepBuf B = .more B' op) : B'.length + 2 ≤ B.length := by
  unfold stepBuf at h
  split at h
  · exact absurd h (by simp)
  · split at h
    · exact absurd h (by simp)
    next k hk =>
      have := stepAligned_shrink _ _ _ h
      simp only [List.length_drop] at this
      omega

theorem processBufF_nil (m : Nat) : processBufF m [] = ([], []) := by
  cases m <;> rfl

theorem processBufF_stable :
    ∀ n B m₁ m₂, B.length ≤ 2 * n → n ≤ m₁ → n ≤ m₂ →
      processBufF m₁ B = processBufF m₂ B := by
  intro n
  induction n with
  | zero =>
    intro B m₁ m₂ hB _ _
    have : B = [] := List.eq_nil_of_length_eq_zero (by omega)
    subst this
    rw [processBufF_nil, processBufF_nil]
  | succ n ih =>
    intro B m₁ m₂ hB hm₁ hm₂
    match m₁, m₂ with
    | a + 1, b + 1 =>
      show (match stepBuf B with
        | .done Bf => (Bf, [])
        | .more B' op =>
          let r := processBufF a B'
          (r.1, op.toList ++ r.2)) = (match stepBuf B with
        | .done Bf => (Bf, [])
        | .more B' op =>
          let r := processBufF b B'
          (r.1, op.toList ++ r.2))
      cases hs : stepBuf B with
      | done Bf => rfl
      | more B' op =>
        have hsh := stepBuf_shrink _ _ _ hs
        dsimp only
        rw [ih B' a b (by omega) (by omega) (by omega)]

theorem processBufF_adequate (m : Nat) (B : List Nat) (h : B.length ≤ m) :
    processBufF m B = processBuf B :=
  processBufF_stable B.length B m B.length (by omega) h (le_refl _)

/-- Unfolding equation for `processBuf` in terms of the loop step. -/
theorem processBuf_step (B : List Nat) :
    processBuf B = match stepBuf B with
      | .done Bf => (Bf, [])
      | .more B' op => ((processBuf B').1, op.toList ++ (processBuf B').2) := by
  rcases B with _ | ⟨x, T⟩
  · rfl
  · show processBufF (x :: T).length (x :: T) = _
    rw [List.length_cons]
    cases hs : stepBuf (x :: T) with
    | done Bf => simp [processBufF, hs]
    | more B' op =>
      have hsh := stepBuf_shrink _ _ _ hs
      have had : processBufF T.length B' = processBuf B' :=
        processBufF_adequate _ _ (by simp only [List.length_cons] at hsh; omega)
      simp [processBufF, hs, had]

/-- C10: every iteration of the frame-processing loop either exits the
loop or strictly shrinks the receive buffer by at least 2 bytes, so the
loop terminates on every finite buffer. -/
theorem step_shrinks_by_two (B B' : List Nat) (op : Option Packet)
    (h : stepBuf B = .more B' op) : B'.length + 2 ≤ B.length :=
  stepBuf_shrink B B' op h

theorem step_shrinks_by_two_witness :
    ([9, 9, 0, 0] : List Nat).length + 2 ≤
      ([85, 67, 9, 9, 0, 0] : List Nat).length :=
  step_shrinks_by_two [85, 67, 9, 9, 0, 0] [9, 9, 0, 0] none (by decide)

/-- C5: when the buffer starts with the magic bytes `'UC'` but the 16-bit
version field is not 1, the loop discards exactly the first 2 bytes — not
the whole buffer — and resumes processing on the rest, so any legitimate
frame later in the buffer is still found. -/
theorem invalid_version_skips_two_bytes (B : List Nat)
    (h6 : 6 ≤ B.length) (hm : B.take 2 = [85, 67]) (hv : readU16 B 2 ≠ 1) :
    processBuf B = processBuf (B.drop 2) := by
  rcases B with _ | ⟨a, _ | ⟨b, rest⟩⟩
  · simp at h6
  · simp at h6
  · simp only [List.take, List.cons.injEq] at hm
    obtain ⟨ha, hb, -⟩ := hm
    subst ha
    subst hb
    have hstep : stepBuf (85 :: 67 :: rest) = .more ((85 :: 67 :: rest).drop 2) none := by
      unfold stepBuf
      rw [if_neg (by omega)]
      have hidx : indexOfUC (85 :: 67 :: rest) = some 0 := by
        unfold indexOfUC
        rw [if_pos ⟨rfl, rfl⟩]
      rw [hidx]
      show stepAligned ((85 :: 67 :: rest).drop 0) = _
      rw [List.drop_zero]
      unfold stepAligned
      rw [if_neg (by omega), if_pos hv]
    rw [processBuf_step, hstep]
    simp

theorem invalid_version_skips_two_bytes_witness :
    processBuf [85, 67, 0, 1, 0, 0] = processBuf ([85, 67, 0, 1, 0, 0].drop 2) :=
  invalid_version_skips_two_bytes [85, 67, 0, 1, 0, 0] (by decide) (by decide)
    (by decide)

theorem mkFrame_cons (pl : List Nat) :
    mkFrame pl = 85 :: 67 :: 1 :: 0 :: (pl.length % 256) ::
      (pl.length / 256 % 256) :: pl := by
  simp [mkFrame, le16]

theorem mkFrame_length (pl : List Nat) :
    (mkFrame pl).length = 6 + pl.length := by
  rw [mkFrame_cons]
  simp
  omega

theorem take_cons6 {α : Type} (a b c d e f : α) (l : List α) (n : Nat) :
    (a :: b :: c :: d :: e :: f :: l).take (n + 6) =
      a :: b :: c :: d :: e :: f :: l.take n := rfl

theorem drop_cons6 {α : Type} (a b c d e f : α) (l : List α) (n : Nat) :
    (a :: b :: c :: d :: e :: f :: l).drop (n + 6) = l.drop n := rfl

theorem mkFrame_drop6 (pl : List Nat) : (mkFrame pl).drop 6 = pl := by
  rw [mkFrame_cons]
  simp

theorem parsePacket_mkFrame (pl : List Nat) (h6 : 6 ≤ pl.length)
    (hlt : pl.length < 65536) :
    parsePacket (mkFrame pl) = .ok (framePacket pl) := by
  rw [mkFrame_cons]
  have hlen : (85 :: 67 :: 1 :: 0 :: (pl.length % 256) ::
      (pl.length / 256 % 256) :: pl).length = 6 + pl.length := by
    simp
    omega
  have hsize : readU16 (85 :: 67 :: 1 :: 0 :: (pl.length % 256) ::
      (pl.length / 256 % 256) :: pl) 4 = pl.length := by
    show pl.length % 256 + 256 * (pl.length / 256 % 256) = pl.length
    omega
  unfold parsePacket
  rw [if_neg (by rw [hlen]; omega)]
  rw [if_neg (not_not_intro ⟨rfl, rfl, rfl⟩)]
  simp only [hsize, hlen]
  rw [if_neg (by omega)]
  have hdrop : (85 :: 67 :: 1 :: 0 :: (pl.length % 256) ::
      (pl.length / 256 % 256) :: pl).drop 6 = pl := by simp
  simp only [hdrop, List.take_length]
  rw [if_neg (by omega)]
  rfl

theorem dispatchThrows_framePacket (pl : List Nat)
    (hzm : ((pl.getD 0 0 % 128 = 90 ∧ pl.getD 1 0 % 128 = 77) ∨
      (pl.getD 0 0 % 128 = 80 ∧ pl.getD 1 0 % 128 = 86)) → 10 ≤ pl.length) :
    dispatchThrows (framePacket pl) = false := by
  unfold dispatchThrows framePacket
  simp only [List.length_drop, Bool.and_eq_false_iff]
  by_cases hty : (pl.getD 0 0 % 128 = 90 ∧ pl.getD 1 0 % 128 = 77) ∨
      (pl.getD 0 0 % 128 = 80 ∧ pl.getD 1 0 % 128 = 86)
  · right
    have h10 := hzm hty
    simp only [decide_eq_false_iff_not]
    omega
  · left
    rw [Bool.or_eq_false_iff]
    constructor <;> simp only [decide_eq_false_iff_not, List.cons.injEq] <;>
      intro hc <;> exact hty (by tauto)

theorem stepBuf_mkFrame (pl rest : List Nat) (h6 : 6 ≤ pl.length)
    (hlt : pl.length < 65536)
    (hnd : dispatchThrows (framePacket pl) = false) :
    stepBuf (mkFrame pl ++ rest) = .more rest (some (framePacket pl)) := by
  rw [mkFrame_cons]
  show stepBuf (85 :: 67 :: 1 :: 0 :: (pl.length % 256) ::
      (pl.length / 256 % 256) :: (pl ++ rest)) = _
  have hlen : (85 :: 67 :: 1 :: 0 :: (pl.length % 256) ::
      (pl.length / 256 % 256) :: (pl ++ rest)).length =
      6 + pl.length + rest.length := by
    simp
    omega
  have hsize : readU16 (85 :: 67 :: 1 :: 0 :: (pl.length % 256) ::
      (pl.length / 256 % 256) :: (pl ++ rest)) 4 = pl.length := by
    show pl.length % 256 + 256 * (pl.length / 256 % 256) = pl.length
    omega
  unfold stepBuf
  rw [if_neg (by rw [hlen]; omega)]
  have hidx : indexOfUC (85 :: 67 :: 1 :: 0 :: (pl.length % 256) ::
      (pl.length / 256 % 256) :: (pl ++ rest)) = some 0 := by
    unfold indexOfUC
    rw [if_pos ⟨rfl, rfl⟩]
  rw [hidx]
  show stepAligned (List.drop 0 _) = _
  rw [List.drop_zero]
  unfold stepAligned
  rw [if_neg (by rw [hlen]; omega)]
  have hv2 : readU16 (85 :: 67 :: 1 :: 0 :: (pl.length % 256) ::
      (pl.length / 256 % 256) :: (pl ++ rest)) 2 = 1 := rfl
  rw [if_neg (not_not_intro hv2)]
  simp only [hsize, hlen]
  rw [if_neg (by omega)]
  have htake : (85 :: 67 :: 1 :: 0 :: (pl.length % 256) ::
      (pl.length / 256 % 256) :: (pl ++ rest)).take (6 + pl.length) =
      mkFrame pl := by
    rw [mkFrame_cons, Nat.add_comm 6 pl.length, take_cons6]
    rw [List.take_left' rfl]
  have hdrop : (85 :: 67 :: 1 :: 0 :: (pl.length % 256) ::
      (pl.length / 256 % 256) :: (pl ++ rest)).drop (6 + pl.length) =
      rest := by
    rw [Nat.add_comm 6 pl.length, drop_cons6]
    rw [List.drop_left' rfl]
  rw [htake, hdrop, parsePacket_mkFrame pl h6 hlt]
  simp [hnd]

theorem processBuf_good_cons (F rest : List Nat) (hF : GoodFrame F) :
    processBuf (F ++ rest) =
      ((processBuf rest).1, decodeFrame F :: (processBuf rest).2) := by
  obtain ⟨pl, rfl, h6, hlt, hzm⟩ := hF
  have hnd := dispatchThrows_framePacket pl hzm
  rw [processBuf_step, stepBuf_mkFrame pl rest h6 hlt hnd]
  simp [decodeFrame, mkFrame_drop6]

/-- Splitting an equation `p ++ r = A ++ t` when `p` is at least as long
as `A`. -/
theorem append_factor {p r A t : List Nat} (h : p ++ r = A ++ t)
    (hlen : A.length ≤ p.length) : ∃ q, p = A ++ q ∧ q ++ r = t := by
  rcases List.append_eq_append_iff.mp h with ⟨a', h1, h2⟩ | ⟨c', h1, h2⟩
  · have : a' = [] := by
      have := congrArg List.length h1
      simp at this
      exact List.eq_nil_of_length_eq_zero (by omega)
    subst this
    refine ⟨[], by simpa using h1.symm, ?_⟩
    simpa using h2
  · exact ⟨c', h1, h2.symm⟩

/-- When `p ++ r = A ++ t` and `p` is at most as long as `A`, `p` is a
prefix of `A`. -/
theorem prefix_of_append_le {p r A t : List Nat} (h : p ++ r = A ++ t)
    (hlen : p.length ≤ A.length) : ∃ s, p ++ s = A := by
  rcases List.append_eq_append_iff.mp h with ⟨a', h1, h2⟩ | ⟨c', h1, h2⟩
  · exact ⟨a', h1.symm⟩
  · have : c' = [] := by
      have := congrArg List.length h1
      simp at this
      exact List.eq_nil_of_length_eq_zero (by omega)
    subst this
    exact ⟨[], by simpa using h1⟩

/-- A proper prefix of a well-formed frame makes the loop wait for more
data: the step neither discards nor extracts. -/
theorem stepBuf_partialFrame (pl p s : List Nat) (hlt : pl.length < 65536)
    (heq : p ++ s = mkFrame pl) (hne : p.length < (mkFrame pl).length) :
    stepBuf p = .done p := by
  by_cases hp6 : p.length < 6
  · unfold stepBuf
    rw [if_pos hp6]
  · rw [mkFrame_cons] at heq
    push_neg at hp6
    obtain ⟨q, hq, hqs⟩ := append_factor
      (p := p) (r := s)
      (A := [85, 67, 1, 0, pl.length % 256, pl.length / 256 % 256]) (t := pl)
      (by simpa using heq) (by simpa using hp6)
    subst hq
    have hqlen : q.length + 6 < 6 + pl.length := by
      rw [mkFrame_length] at hne
      simpa using hne
    show stepBuf (85 :: 67 :: 1 :: 0 :: (pl.length % 256) ::
      (pl.length / 256 % 256) :: q) = _
    have hsize : readU16 (85 :: 67 :: 1 :: 0 :: (pl.length % 256) ::
        (pl.length / 256 % 256) :: q) 4 = pl.length := by
      show pl.length % 256 + 256 * (pl.length / 256 % 256) = pl.length
      omega
    unfold stepBuf
    rw [if_neg (by simp)]
    have hidx : indexOfUC (85 :: 67 :: 1 :: 0 :: (pl.length % 256) ::
        (pl.length / 256 % 256) :: q) = some 0 := by
      unfold indexOfUC
      rw [if_pos ⟨rfl, rfl⟩]
    rw [hidx]
    show stepAligned (List.drop 0 _) = _
    rw [List.drop_zero]
    unfold stepAligned
    rw [if_neg (by simp)]
    have hv2 : readU16 (85 :: 67 :: 1 :: 0 :: (pl.length % 256) ::
        (pl.length / 256 % 256) :: q) 2 = 1 := rfl
    rw [if_neg (not_not_intro hv2)]
    simp only [hsize]
    rw [if_pos (by simp; omega)]
    rfl

/-- A proper prefix of a well-formed frame is carried over unchanged. -/
theorem processBuf_partialFrame (pl p s : List Nat) (hlt : pl.length < 65536)
    (heq : p ++ s = mkFrame pl) (hne : p.length < (mkFrame pl).length) :
    processBuf p = (p, []) := by
  rw [processBuf_step, stepBuf_partialFrame pl p s hlt heq hne]

theorem goodFrame_length_ge (F : List Nat) (h : GoodFrame F) :
    12 ≤ F.length := by
  obtain ⟨pl, rfl, h6, -, -⟩ := h
  rw [mkFrame_length]
  omega

/-- Processing any prefix of a concatenation of good frames consumes
exactly the fully present frames and carries the proper prefix of the
next one. -/
theorem processBuf_join_decomp :
    ∀ (fs : List (List Nat)) (q r : List Nat),
      (∀ F ∈ fs, GoodFrame F) → q ++ r = fs.flatten →
      ∃ gs hs p, fs = gs ++ hs ∧ q = gs.flatten ++ p ∧
        processBuf q = (p, gs.map decodeFrame) ∧
        p ++ r = hs.flatten ∧ PartialFor p hs := by
  intro fs
  induction fs with
  | nil =>
    intro q r hg h
    simp only [List.flatten_nil] at h
    rcases List.append_eq_nil.mp h with ⟨rfl, rfl⟩
    exact ⟨[], [], [], rfl, rfl, rfl, rfl, Or.inl rfl⟩
  | cons F fs₂ ih =>
    intro q r hg h
    have hgF : GoodFrame F := hg F (by simp)
    have hgfs₂ : ∀ G ∈ fs₂, GoodFrame G := fun G hG => hg G (by simp [hG])
    rw [List.flatten_cons] at h
    by_cases hlen : F.length ≤ q.length
    · obtain ⟨q₂, rfl, hq₂⟩ := append_factor h hlen
      obtain ⟨gs₂, hs, p, hfs, hq, hpb, hpr, hpart⟩ := ih q₂ r hgfs₂ hq₂
      refine ⟨F :: gs₂, hs, p, by simp [hfs], ?_, ?_, hpr, hpart⟩
      · rw [List.flatten_cons, hq, List.append_assoc]
      · rw [processBuf_good_cons F q₂ hgF, hpb]
        simp
    · push_neg at hlen
      obtain ⟨s, hs⟩ := prefix_of_append_le h (le_of_lt hlen)
      obtain ⟨pl, hpl, h6, hplt, hzm⟩ := hgF
      have hne : q.length < (mkFrame pl).length := by rw [← hpl]; exact hlen
      have heq2 : q ++ s = mkFrame pl := by rw [← hpl]; exact hs
      refine ⟨[], F :: fs₂, q, rfl, by simp,
        processBuf_partialFrame pl q s hplt heq2 hne, ?_, ?_⟩
      · rw [List.flatten_cons]
        exact h
      · right
        refine ⟨F, fs₂, s, rfl, hs, ?_⟩
        intro hsnil
        subst hsnil
        simp at hs
        subst hs
        omega

/-- Feeding chunks from a state that carries a proper prefix of the
remaining good frames consumes everything and emits all their packets. -/
theorem feedGo_complete :
    ∀ (cs hs : List (List Nat)) (p : List Nat) (acc : List Packet),
      (∀ F ∈ hs, GoodFrame F) → PartialFor p hs →
      p ++ cs.flatten = hs.flatten →
      cs.foldl feedStep (p, acc) = ([], acc ++ hs.map decodeFrame) := by
  intro cs
  induction cs with
  | nil =>
    intro hs p acc hg hpart h
    simp only [List.flatten_nil, List.append_nil] at h
    rcases hpart with rfl | ⟨F, hs₂, s, rfl, hps, hsne⟩
    · have hhs : hs = [] := by
        cases hs with
        | nil => rfl
        | cons F hs₂ =>
          exfalso
          have h12 := goodFrame_length_ge F (hg F (by simp))
          rw [List.flatten_cons] at h
          rcases List.append_eq_nil.mp h.symm with ⟨hF, -⟩
          rw [hF] at h12
          simp at h12
      subst hhs
      simp
    · exfalso
      rw [List.flatten_cons] at h
      have h1 := congrArg List.length h
      have h2 := congrArg List.length hps
      simp at h1 h2
      exact hsne (List.eq_nil_of_length_eq_zero (by omega))
  | cons c cs₂ ih =>
    intro hs p acc hg hpart h
    rw [List.flatten_cons, ← List.append_assoc] at h
    obtain ⟨gs, hs₂, p', hfs, hq, hpb, hpr, hpart2⟩ :=
      processBuf_join_decomp hs (p ++ c) cs₂.flatten hg h
    rw [List.foldl_cons]
    have hstep : feedStep (p, acc) c = (p', acc ++ gs.map decodeFrame) := by
      unfold feedStep handleIncomingData
      rw [hpb]
    rw [hstep]
    have hg₂ : ∀ F ∈ hs₂, GoodFrame F := fun F hF => hg F (by
      rw [hfs]
      simp [hF])
    rw [ih hs₂ p' (acc ++ gs.map decodeFrame) hg₂ hpart2 hpr, hfs]
    simp

/-- C2 (amended): feeding a concatenation of well-formed frames — each
accepted by the parser and long enough for every fixed-offset read in the
parse and dispatch path — split at arbitrary chunk boundaries produces
exactly the same final buffer and the same sequence of decoded frames, in
the same order, as feeding the whole sequence as one chunk. -/
theorem feedChunks_chunk_invariant (fs cs : List (List Nat))
    (hgood : ∀ F ∈ fs, GoodFrame F) (hsplit : cs.flatten = fs.flatten) :
    feedChunks cs = feedChunks [fs.flatten] := by
  have h1 : feedChunks cs = ([], [] ++ fs.map decodeFrame) := by
    unfold feedChunks
    exact feedGo_complete cs fs [] [] hgood (Or.inl rfl) (by simpa using hsplit)
  have h2 : feedChunks [fs.flatten] = ([], [] ++ fs.map decodeFrame) := by
    unfold feedChunks
    exact feedGo_complete [fs.flatten] fs [] [] hgood (Or.inl rfl) (by simp)
  rw [h1, h2]

theorem feedChunks_chunk_invariant_witness :
    feedChunks [[85, 67, 1], [0, 6, 0, 75, 65, 104, 0, 102, 0]] =
      feedChunks [List.flatten [mkFrame [75, 65, 104, 0, 102, 0]]] :=
  feedChunks_chunk_invariant [mkFrame [75, 65, 104, 0, 102, 0]]
    [[85, 67, 1], [0, 6, 0, 75, 65, 104, 0, 102, 0]]
    (by
      intro F hF
      simp at hF
      subst hF
      exact ⟨[75, 65, 104, 0, 102, 0], rfl, by decide, by decide, by decide⟩)
    (by decide)

/-- C2 (counterexample): the claim fails for arbitrary valid frames.  A
frame with a 0-byte payload is valid at the framing layer, but
`parsePacket` throws on it (`payload.readUInt16LE(2)` is out of range) and
the catch block then discards 2 bytes of whatever follows in the buffer.
Fed in one chunk, those 2 bytes are the start of the next frame, which is
then lost; fed at a frame boundary, the next frame is still decoded. -/
theorem feedChunks_chunking_dependent :
    feedChunks [[85, 67, 1, 0, 0, 0] ++ mkFrame [75, 65, 104, 0, 102, 0]] ≠
      feedChunks [[85, 67, 1, 0, 0, 0], mkFrame [75, 65, 104, 0, 102, 0]] := by
  decide

/-- C3: toggling mute on a channel whose mute state is unknown sends
exactly one PV frame for `line/ch<N>/mute` encoding true (the wire bytes
of 1.0) and records `mute = true`; toggling 48v on a channel whose 48v
state is unknown sends one PV frame for `line/ch<N>/48v` encoding false
(the wire bytes of 0.0) and records `48v = false`. -/
theorem toggle_unknown_defaults (n : Nat) (s : UCState)
    (hmu : readChanAttr s n .mute = none)
    (h48 : readChanAttr s n .v48 = none) :
    (toggleChannelMute n s).2 =
      [buildPVPacket (strBytes ("line/ch" ++ toString n ++ "/mute"))
        (float32OfBool true)] ∧
    readChanAttr (toggleChannelMute n s).1 n .mute = some true ∧
    (toggleChannel48V n s).2 =
      [buildPVPacket (strBytes ("line/ch" ++ toString n ++ "/48v"))
        (float32OfBool false)] ∧
    readChanAttr (toggleChannel48V n s).1 n .v48 = some false := by
  cases hc : s.channelStates n with
  | none =>
    refine ⟨?_, ?_, ?_, ?_⟩ <;>
      simp [toggleChannelMute, toggleChannel48V, hc, setChan, readChanAttr,
        setChannelMutePacket, setChannel48VPacket, ChanRec.attr]
  | some r =>
    have hrm : r.mute = none := by
      rw [readChanAttr, hc] at hmu
      simpa [ChanRec.attr] using hmu
    have hr48 : r.v48 = none := by
      rw [readChanAttr, hc] at h48
      simpa [ChanRec.attr] using h48
    refine ⟨?_, ?_, ?_, ?_⟩ <;>
      simp [toggleChannelMute, toggleChannel48V, hc, hrm, hr48, setChan,
        readChanAttr, setChannelMutePacket, setChannel48VPacket, ChanRec.attr]

theorem toggle_unknown_defaults_witness :
    (toggleChannelMute 3 initState).2 =
      [buildPVPacket (strBytes ("line/ch" ++ toString 3 ++ "/mute"))
        (float32OfBool true)] ∧
    readChanAttr (toggleChannelMute 3 initState).1 3 .mute = some true ∧
    (toggleChannel48V 3 initState).2 =
      [buildPVPacket (strBytes ("line/ch" ++ toString 3 ++ "/48v"))
        (float32OfBool false)] ∧
    readChanAttr (toggleChannel48V 3 initState).1 3 .v48 = some false :=
  toggle_unknown_defaults 3 initState rfl rfl

/-- C9: when a channel record exists but the toggled attribute is unknown,
`toggleChannelMute` replaces the whole record with `{ mute: true }`,
erasing every other known attribute, while the solo/48v/hpf/pad toggles
spread the existing record and so preserve the other known attributes. -/
theorem toggle_mute_replaces_record_others_merge (s : UCState)
    (n₁ n₂ n₃ n₄ n₅ : Nat) (r₁ r₂ r₃ r₄ r₅ : ChanRec)
    (h₁ : s.channelStates n₁ = some r₁) (h₁m : r₁.mute = none)
    (h₂ : s.channelStates n₂ = some r₂) (h₂s : r₂.solo = none)
    (h₃ : s.channelStates n₃ = some r₃) (h₃v : r₃.v48 = none)
    (h₄ : s.channelStates n₄ = some r₄) (h₄h : r₄.hpf = none)
    (h₅ : s.channelStates n₅ = some r₅) (h₅p : r₅.pad = none) :
    (toggleChannelMute n₁ s).1.channelStates n₁ = some { mute := some true } ∧
    (toggleChannelSolo n₂ s).1.channelStates n₂ =
      some { r₂ with solo := some true } ∧
    (toggleChannel48V n₃ s).1.channelStates n₃ =
      some { r₃ with v48 := some false } ∧
    (toggleChannelHPF n₄ s).1.channelStates n₄ =
      some { r₄ with hpf := some false } ∧
    (toggleChannelPad n₅ s).1.channelStates n₅ =
      some { r₅ with pad := some false } := by
  refine ⟨?_, ?_, ?_, ?_, ?_⟩ <;>
    simp [toggleChannelMute, toggleChannelSolo, toggleChannel48V,
      toggleChannelHPF, toggleChannelPad, h₁, h₁m, h₂, h₂s, h₃, h₃v, h₄, h₄h,
      h₅, h₅p, setChan]

theorem toggle_mute_replaces_record_others_merge_witness :
    (toggleChannelMute 1 ⟨fun k =>
      if k = 1 then some { solo := some true } else
      if k = 2 then some { mute := some true } else
      if k = 3 then some { mute := some true } else
      if k = 4 then some { mute := some true } else
      if k = 5 then some { mute := some true } else none,
      false⟩).1.channelStates 1 = some { mute := some true } ∧
    (toggleChannelSolo 2 ⟨fun k =>
      if k = 1 then some { solo := some true } else
      if k = 2 then some { mute := some true } else
      if k = 3 then some { mute := some true } else
      if k = 4 then some { mute := some true } else
      if k = 5 then some { mute := some true } else none,
      false⟩).1.channelStates 2 =
      some { mute := some true, solo := some true } ∧
    (toggleChannel48V 3 ⟨fun k =>
      if k = 1 then some { solo := some true } else
      if k = 2 then some { mute := some true } else
      if k = 3 then some { mute := some true } else
      if k = 4 then some { mute := some true } else
      if k = 5 then some { mute := some true } else none,
      false⟩).1.channelStates 3 =
      some { mute := some true, v48 := some false } ∧
    (toggleChannelHPF 4 ⟨fun k =>
      if k = 1 then some { solo := some true } else
      if k = 2 then some { mute := some true } else
      if k = 3 then some { mute := some true } else
      if k = 4 then some { mute := some true } else
      if k = 5 then some { mute := some true } else none,
      false⟩).1.channelStates 4 =
      some { mute := some true, hpf := some false } ∧
    (toggleChannelPad 5 ⟨fun k =>
      if k = 1 then some { solo := some true } else
      if k = 2 then some { mute := some true } else
      if k = 3 then some { mute := some true } else
      if k = 4 then some { mute := some true } else
      if k = 5 then some { mute := some true } else none,
      false⟩).1.channelStates 5 =
      some { mute := some true, pad := some false } :=
  toggle_mute_replaces_record_others_merge _ 1 2 3 4 5
    { solo := some true } { mute := some true } { mute := some true }
    { mute := some true } { mute := some true }
    rfl rfl rfl rfl rfl rfl rfl rfl rfl rfl

/-- C4 (counterexample): for the global `mixerBypass` parameter the state
read does not distinguish a never-observed state from an observed false
value: `mixerBypassState` is the plain boolean `false` from the
constructor on, so the feedback render in the never-observed initial
state equals the render after observing an explicit false (PV value 0.0),
and it is never the distinguished `null`. -/
theorem mixerBypass_unknown_indistinguishable :
    mixerBypassFeedback initState 1 2 =
      mixerBypassFeedback
        (handlePVPacket (strBytes "global/mixerBypass" ++ float32OfBool false)
          initState) 1 2 ∧
    mixerBypassFeedback initState 1 2 ≠ none ∧
    initState.mixerBypassState = false ∧
    (handlePVPacket (strBytes "global/mixerBypass" ++ float32OfBool false)
      initState).mixerBypassState = false := by
  refine ⟨by decide, by decide, rfl, by decide⟩

/-- C4 (amended): every per-channel attribute read is tri-state — each
channel feedback callback returns `null` exactly when the attribute was
never observed and otherwise the colour chosen by the known boolean —
while the global `mixerBypass` read is a plain boolean (initialized to
false), whose feedback never returns `null`. -/
theorem feedback_reads_tristate (s : UCState) (n : Nat) (c1 c2 : Nat) :
    (channelMuteFeedback s n c1 c2 = none ↔ readChanAttr s n .mute = none) ∧
    (∀ b, readChanAttr s n .mute = some b →
      channelMuteFeedback s n c1 c2 = some (if b then c1 else c2)) ∧
    (channelSoloFeedback s n c1 c2 = none ↔ readChanAttr s n .solo = none) ∧
    (∀ b, readChanAttr s n .solo = some b →
      channelSoloFeedback s n c1 c2 = some (if b then c1 else c2)) ∧
    (channelHPFFeedback s n c1 c2 = none ↔ readChanAttr s n .hpf = none) ∧
    (∀ b, readChanAttr s n .hpf = some b →
      channelHPFFeedback s n c1 c2 = some (if b then c1 else c2)) ∧
    (channel48VFeedback s n c1 c2 = none ↔ readChanAttr s n .v48 = none) ∧
    (∀ b, readChanAttr s n .v48 = some b →
      channel48VFeedback s n c1 c2 = some (if b then c1 else c2)) ∧
    mixerBypassFeedback s c1 c2 =
      some (if s.mixerBypassState then c1 else c2) := by
  cases hc : s.channelStates n with
  | none =>
    refine ⟨?_, ?_, ?_, ?_, ?_, ?_, ?_, ?_, rfl⟩ <;>
      simp [channelMuteFeedback, channelSoloFeedback, channelHPFFeedback,
        channel48VFeedback, readChanAttr, hc]
  | some r =>
    refine ⟨?_, ?_, ?_, ?_, ?_, ?_, ?_, ?_, rfl⟩
    · cases hm : r.mute with
      | none => simp [channelMuteFeedback, readChanAttr, hc, ChanRec.attr, hm]
      | some b =>
        cases b <;>
          simp [channelMuteFeedback, readChanAttr, hc, ChanRec.attr, hm]
    · intro b hb
      have hm : r.mute = some b := by
        simpa [readChanAttr, hc, ChanRec.attr] using hb
      cases b <;> simp [channelMuteFeedback, hc, hm]
    · cases hm : r.solo with
      | none => simp [channelSoloFeedback, readChanAttr, hc, ChanRec.attr, hm]
      | some b =>
        cases b <;>
          simp [channelSoloFeedback, readChanAttr, hc, ChanRec.attr, hm]
    · intro b hb
      have hm : r.solo = some b := by
        simpa [readChanAttr, hc, ChanRec.attr] using hb
      cases b <;> simp [channelSoloFeedback, hc, hm]
    · cases hm : r.hpf with
      | none => simp [channelHPFFeedback, readChanAttr, hc, ChanRec.attr, hm]
      | some b =>
        cases b <;>
          simp [channelHPFFeedback, readChanAttr, hc, ChanRec.attr, hm]
    · intro b hb
      have hm : r.hpf = some b := by
        simpa [readChanAttr, hc, ChanRec.attr] using hb
      cases b <;> simp [channelHPFFeedback, hc, hm]
    · cases hm : r.v48 with
      | none => simp [channel48VFeedback, readChanAttr, hc, ChanRec.attr, hm]
      | some b =>
        cases b <;>
          simp [channel48VFeedback, readChanAttr, hc, ChanRec.attr, hm]
    · intro b hb
      have hm : r.v48 = some b := by
        simpa [readChanAttr, hc, ChanRec.attr] using hb
      cases b <;> simp [channel48VFeedback, hc, hm]

theorem feedback_reads_tristate_witness :
    channelMuteFeedback
      ⟨fun k => if k = 1 then some { mute := some false } else none, false⟩
      1 7 9 = some 9 :=
  (feedback_reads_tristate
    ⟨fun k => if k = 1 then some { mute := some false } else none, false⟩
    1 7 9).2.1 false (by decide)

theorem default_chanRec_attr (a : Attr) : ({} : ChanRec).attr a = none := by
  cases a <;> rfl

theorem applyChanValues_attr_none (v : ChanValues) (r : ChanRec) (a : Attr)
    (hva : v.attr a = none) : (applyChanValues v r).attr a = r.attr a := by
  cases a <;>
    · simp only [ChanValues.attr] at hva
      simp [applyChanValues, ChanRec.attr, hva]

theorem chanEntryStep_read (kv : String × Option ChanValues) (st : UCState)
    (n : Nat) (a : Attr)
    (h : matchChKey kv.1 = some n → ∀ v, kv.2 = some v →
      ChanValues.attr v a = none) :
    readChanAttr (chanEntryStep st kv) n a = readChanAttr st n a := by
  unfold chanEntryStep
  cases hk : matchChKey kv.1 with
  | none =>
    cases kv.2 <;> rfl
  | some m =>
    cases hv : kv.2 with
    | none => rfl
    | some v =>
      by_cases hmn : m = n
      · subst hmn
        have hva := h hk v hv
        unfold readChanAttr setChan
        simp only [if_pos rfl]
        cases hr : st.channelStates m with
        | none =>
          simp [applyChanValues_attr_none v _ a hva, default_chanRec_attr]
        | some r =>
          simp [applyChanValues_attr_none v _ a hva]
      · unfold readChanAttr setChan
        simp only []
        rw [if_neg (fun hh => hmn hh.symm)]

theorem chanEntryStep_bypass (kv : String × Option ChanValues)
    (st : UCState) :
    (chanEntryStep st kv).mixerBypassState = st.mixerBypassState := by
  unfold chanEntryStep
  cases matchChKey kv.1 <;> cases kv.2 <;> rfl

theorem foldl_chanEntry_read :
    ∀ (l : List (String × Option ChanValues)) (s : UCState) (n : Nat)
      (a : Attr),
      (∀ kv ∈ l, matchChKey kv.1 = some n → ∀ v, kv.2 = some v →
        ChanValues.attr v a = none) →
      readChanAttr (l.foldl chanEntryStep s) n a = readChanAttr s n a := by
  intro l
  induction l with
  | nil => intro s n a h; rfl
  | cons kv rest ih =>
    intro s n a h
    rw [List.foldl_cons]
    rw [ih _ n a (fun kv2 hk2 => h kv2 (by simp [hk2]))]
    exact chanEntryStep_read kv s n a (h kv (by simp))

theorem foldl_chanEntry_bypass :
    ∀ (l : List (String × Option ChanValues)) (s : UCState),
      (l.foldl chanEntryStep s).mixerBypassState = s.mixerBypassState := by
  intro l
  induction l with
  | nil => intro s; rfl
  | cons kv rest ih =>
    intro s
    rw [List.foldl_cons, ih, chanEntryStep_bypass]

theorem updateGlobalStates_read (doc : ZMDoc) (s : UCState) (n : Nat)
    (a : Attr) :
    readChanAttr (updateGlobalStates doc s) n a = readChanAttr s n a := by
  unfold updateGlobalStates
  cases doc.globalMixerBypass <;> rfl

/-- C6: a snapshot update only touches the keys present in the document:
for every channel attribute absent from the document the previous tri-state
read is unchanged, and when `mixerBypass` is absent the global state is
unchanged (merge, not replace). -/
theorem snapshot_merge_preserves_absent (doc : ZMDoc) (s : UCState)
    (n : Nat) (a : Attr) :
    ((∀ kv ∈ doc.lineChildren, matchChKey kv.1 = some n →
        ∀ v, kv.2 = some v → ChanValues.attr v a = none) →
      readChanAttr (applySnapshot doc s) n a = readChanAttr s n a) ∧
    (doc.globalMixerBypass = none →
      (applySnapshot doc s).mixerBypassState = s.mixerBypassState) := by
  constructor
  · intro h
    unfold applySnapshot
    rw [updateGlobalStates_read]
    unfold updateChannelStates
    exact foldl_chanEntry_read doc.lineChildren s n a h
  · intro h
    unfold applySnapshot updateGlobalStates
    rw [h]
    unfold updateChannelStates
    exact foldl_chanEntry_bypass doc.lineChildren s

theorem snapshot_merge_preserves_absent_witness :
    readChanAttr (applySnapshot ⟨[("ch3", some { mute := some 1 })], none⟩
        ⟨fun k => if k = 3 then some { solo := some true } else none, false⟩)
      3 .solo =
    readChanAttr
      ⟨fun k => if k = 3 then some { solo := some true } else none, false⟩
      3 .solo :=
  (snapshot_merge_preserves_absent ⟨[("ch3", some { mute := some 1 })], none⟩
    ⟨fun k => if k = 3 then some { solo := some true } else none, false⟩
    3 .solo).1 (by
      intro kv hkv hm v hv
      simp only [List.mem_singleton] at hkv
      subst hkv
      simp only [Option.some.injEq] at hv
      subst hv
      rfl)

/-- C7: PV decode reserves exactly the last 4 bytes of the body as the
little-endian float value and treats everything before, with embedded NUL
bytes stripped, as the parameter name; in particular a body whose name
portion carries embedded NULs is handled exactly like the body with the
NUL-stripped name, with the same float value bytes. -/
theorem pv_decode_nul_strip (nb v : List Nat) (s : UCState)
    (hv : v.length = 4) :
    pvSplit (nb ++ v) = (nb.filter (fun b => b ≠ 0), v) ∧
    handlePVPacket (nb ++ v) s =
      handlePVPacket (nb.filter (fun b => b ≠ 0) ++ v) s := by
  have hlen : (nb ++ v).length - 4 = nb.length := by simp [hv]
  have hsplit : pvSplit (nb ++ v) = (nb.filter (fun b => b ≠ 0), v) := by
    unfold pvSplit
    rw [hlen, List.take_left' rfl, List.drop_left' rfl]
  have hflen : (nb.filter (fun b => b ≠ 0) ++ v).length - 4 =
      (nb.filter (fun b => b ≠ 0)).length := by simp [hv]
  have hsplit2 : pvSplit (nb.filter (fun b => b ≠ 0) ++ v) =
      (nb.filter (fun b => b ≠ 0), v) := by
    unfold pvSplit
    rw [hflen, List.take_left' rfl, List.drop_left' rfl]
    rw [List.filter_filter]
    simp
  refine ⟨hsplit, ?_⟩
  unfold handlePVPacket
  rw [hsplit, hsplit2]

theorem pv_decode_nul_strip_witness :
    pvSplit ((strBytes "line/ch5" ++ [0, 0] ++ strBytes "/mute") ++
        float32OfBool true) =
      ((strBytes "line/ch5" ++ [0, 0] ++ strBytes "/mute").filter
        (fun b => b ≠ 0), float32OfBool true) ∧
    handlePVPacket ((strBytes "line/ch5" ++ [0, 0] ++ strBytes "/mute") ++
        float32OfBool true) initState =
      handlePVPacket ((strBytes "line/ch5" ++ [0, 0] ++
        strBytes "/mute").filter (fun b => b ≠ 0) ++ float32OfBool true)
        initState :=
  pv_decode_nul_strip (strBytes "line/ch5" ++ [0, 0] ++ strBytes "/mute")
    (float32OfBool true) initState (by decide)

/-- C8: when decompression or parsing of a ZM snapshot body fails, the
snapshot is dropped and neither any channel state nor the global
`mixerBypass` state changes. -/
theorem zm_failure_leaves_state (f : List Nat → Option ZMDoc)
    (body : List Nat) (s : UCState)
    (hf : f ((body.drop 4).drop 2) = none) :
    handleZMPacket f body s = s := by
  have hf6 : f (body.drop 6) = none := by simpa using hf
  simp [handleZMPacket, hf6]

theorem zm_failure_leaves_state_witness :
    handleZMPacket (fun _ => none) [] initState = initState :=
  zm_failure_leaves_state (fun _ => none) [] initState rfl

end UCControl
